import Mathlib

/-!
# Shallow embedding of the kMenus menu framework

The repository contains two variants of the same console-menu design:

* the "include" variant: `src/include/Menu/Menu.h`, `src/include/Menu/ActionItem.h`
  and `src/include/Menu/MenuUtils.h`;
* the "src" variant: `src/src/Menu/Menu.h`, `src/src/Menu/ActionItem.h`
  and `src/src/IMenuItem/IMenuItem.h`.

Modelling decisions, fixed once for the whole file:

* The menu tree (`IMenuItem` with subclasses `ActionItem` and `Menu`) is the
  inductive type `MenuNode` with constructors `actionItem` and `menu`.
* The stored callable `std::function<void()>` of an `ActionItem` is modelled by
  its observable behaviour `ActKind`: empty/unbound, returning normally, or
  throwing a `std::exception` whose `what()` is a given message.
* The input stream is the sequence of choice tokens the user enters at the
  integer prompts: `Input.num n` is a line parsing as the integer `n`,
  `Input.junk` a line that fails to parse.  The press-Enter keystrokes consumed
  by `MenuUtils::pause` / `std::cin.get()` are presentation (they are not choice
  tokens) and are recorded as `Event.keyWait` events rather than consuming from
  the choice stream.
* All console I/O is recorded in an event trace: `out` for stdout writes,
  `err` for stderr writes, `clearScreen` for the screen clear,
  `invoke t` for the actual invocation of the callable of the `ActionItem`
  titled `t`, `dispatch t` for the call `items[choice - 1]->execute()` on the
  child titled `t`, and `keyWait` for a blocking wait for a keypress.
* `execute` loops until the user enters `0`; a run is interpreted by a
  fuel-indexed structural interpreter, one unit of fuel per `Menu` loop
  iteration.  `none` means the run did not finish within the fuel, or blocked
  forever on an exhausted input stream.  An escaping C++ exception is the
  outcome `Outcome.thrown msg`; a normal `return b` is `Outcome.normal b`.
* Since a C++ `execute()` call could in principle mutate the object it runs on,
  the interpreter threads the node through the call and returns the node as it
  stands after the call (child results are written back into the parent's
  `items` at the dispatched position, mirroring the shared mutable children).
-/

/-- One line of user input at an integer prompt: a line parsing as an integer,
or an unparseable (non-numeric) line. -/
inductive Input where
  | num (n : Int)
  | junk
deriving DecidableEq, Repr

/-- Observable behaviour of a stored `std::function<void()>` callable:
empty/unbound, returning normally, or throwing a `std::exception` whose
`what()` message is `msg`. -/
inductive ActKind where
  | unbound
  | returns
  | throws (msg : String)
deriving DecidableEq, Repr

/-- Console events of a run. -/
inductive Event where
  | clearScreen
  | out (s : String)
  | err (s : String)
  | invoke (title : String)
  | dispatch (title : String)
  | keyWait
deriving DecidableEq, Repr

/-- How an `execute()` call ended: a normal `return b`, or a C++ exception
escaping the call with message `msg`. -/
inductive Outcome where
  | normal (b : Bool)
  | thrown (msg : String)
deriving DecidableEq, Repr

/-- The menu tree: `IMenuItem` with its two subclasses.  `actionItem t a` is an
`ActionItem` with title `t` and callable behaviour `a`; `menu t root items` is
a `Menu` with title `t`, `isRoot` flag `root` and children `items`. -/
inductive MenuNode where
  | actionItem (title : String) (action : ActKind)
  | menu (title : String) (isRoot : Bool) (items : List MenuNode)

/-- `IMenuItem::get_title`. -/
def MenuNode.get_title : MenuNode → String
  | .actionItem t _ => t
  | .menu t _ _ => t

/-- The `Menu` class state during setup: title, `isRoot`, children. -/
structure Menu where
  title : String
  isRoot : Bool
  items : List MenuNode

/-- `Menu::add_item`: appends the given node to `items`. -/
def Menu.add_item (m : Menu) (item : MenuNode) : Menu :=
  { m with items := m.items ++ [item] }

/-- `Menu::add_action`: constructs an `ActionItem` from the title and the bound
callable and appends it to `items`. -/
def Menu.add_action (m : Menu) (t : String) (a : ActKind) : Menu :=
  { m with items := m.items ++ [MenuNode.actionItem t a] }

/-- A `Menu` object viewed as a node of the tree. -/
def Menu.toNode (m : Menu) : MenuNode :=
  MenuNode.menu m.title m.isRoot m.items

/-- `Menu::add_sub_menu`: appends the sub-menu to `items`. -/
def Menu.add_sub_menu (m : Menu) (sub : Menu) : Menu :=
  { m with items := m.items ++ [sub.toNode] }

/-- The prompt both variants print before reading a choice
(`"\nChoice >> "`). -/
def choicePrompt : String := "\nChoice >> "

/-- The diagnostic `MenuUtils::get_int_option` prints on a parse failure. -/
def diagMsg : String := "Invalid choice! Please enter a number.\n"

/-- Default message of `MenuUtils::pause`. -/
def stdPauseMsg : String := "Please press enter to continue..."

/-- Message the include-variant `Menu::execute` passes to `MenuUtils::pause`
after catching an escaping error. -/
def errPauseMsg : String := "Please read error message after that you can press enter to continue..."

/-- Events of one `MenuUtils::pause(message)` call: it writes `"\n"` followed
by the message, then blocks until Enter. -/
def pauseEvs (message : String) : List Event :=
  [Event.out ("\n" ++ message), Event.keyWait]

/-- Events of the render phase of one `Menu::execute` loop iteration (both
variants): clear the screen, list each child's title preceded by its 1-based
index, then the index-0 line (`"0. Exit"` when `isRoot`, else
`"0. Go back."`). -/
def renderEvs (root : Bool) (items : List MenuNode) : List Event :=
  Event.clearScreen ::
    (items.enum.map fun p => Event.out (toString (p.1 + 1) ++ ". " ++ p.2.get_title ++ "\n"))
    ++ [Event.out (if root then "0. Exit\n" else "0. Go back.\n")]

/-- `MenuUtils::get_int_option`: print the prompt, try to read an integer;
on success discard the rest of the line and return it; on a parse failure
print a diagnostic, discard the bad input and retry.  Returns `none` when the
input stream is exhausted before a numeric line (the call blocks forever). -/
def get_int_option (prompt : String) : List Input → Option (Int × List Input × List Event)
  | [] => none
  | Input.num n :: rest => some (n, rest, [Event.out prompt])
  | Input.junk :: rest =>
    match get_int_option prompt rest with
    | none => none
    | some (n, r, evs) => some (n, r, Event.out prompt :: Event.out diagMsg :: evs)

/-- The include-variant `ActionItem::execute`
(`src/include/Menu/ActionItem.h`): `if (action) action(); return true;` —
no try/catch, so a throwing callable lets the exception escape. -/
def includeActionRun (t : String) (a : ActKind) : Outcome × List Event :=
  match a with
  | .unbound => (.normal true, [])
  | .returns => (.normal true, [Event.invoke t])
  | .throws m => (.thrown m, [Event.invoke t])

/-- The src-variant `ActionItem::execute` (`src/src/Menu/ActionItem.h`):
`try { action(); cin.ignore(...); cin.get(); } catch (const std::exception& e)
{ cerr << e.what() << '\n'; cin.ignore(...); cin.get(); } return true;`.
Calling an empty `std::function` throws `std::bad_function_call`, which the
catch block reports. -/
def srcActionRun (t : String) (a : ActKind) : Outcome × List Event :=
  match a with
  | .unbound => (.normal true, [Event.err "bad_function_call\n", Event.keyWait])
  | .returns => (.normal true, [Event.invoke t, Event.keyWait])
  | .throws m => (.normal true, [Event.invoke t, Event.err (m ++ "\n"), Event.keyWait])

/-- Stand-in default for the `items[choice - 1]` access; the range guard in
`Menu::execute` keeps the index in bounds so this default is never selected
on the guarded path. -/
def defaultChild : MenuNode := MenuNode.actionItem "" ActKind.unbound

/-- Result of an `execute()` call: the outcome, the node as it stands after
the call, the remaining input, and the event trace. -/
def Res : Type := Outcome × MenuNode × List Input × List Event

/-- Events the include-variant `Menu::execute` emits right after a dispatched
child call: on normal return, `MenuUtils::pause()`; on a caught escaping
error, the error message on stderr then the longer pause. -/
def postOf : Outcome → List Event
  | .normal _ => pauseEvs stdPauseMsg
  | .thrown m => Event.err (m ++ "\n") :: pauseEvs errPauseMsg

/-- The include-variant `execute` (`src/include/Menu/Menu.h` together with its
`ActionItem` and `MenuUtils`), fuel-indexed: one unit of fuel per `Menu` loop
iteration.  Per iteration: clear and render, read a choice through
`MenuUtils::get_int_option`; on `0` return `false`; on a valid 1-based index
dispatch `items[choice - 1]->execute()` inside try/catch, pausing afterwards
(error message and a longer pause message in the catch arm); otherwise print
`"Invalid choice!"`, pause, and loop. -/
def includeExecF : Nat → MenuNode → List Input → Option Res
  | _, .actionItem t a, inputs =>
    let r := includeActionRun t a
    some (r.1, .actionItem t a, inputs, r.2)
  | 0, .menu _ _ _, _ => none
  | f + 1, .menu t root items, inputs =>
    match get_int_option choicePrompt inputs with
    | none => none
    | some (choice, rest, pEvs) =>
      let rEvs := renderEvs root items
      if choice = 0 then
        some (.normal false, .menu t root items, rest, rEvs ++ pEvs)
      else if 0 < choice ∧ choice ≤ (items.length : Int) then
        let idx := (choice - 1).toNat
        let child := items.getD idx defaultChild
        match includeExecF f child rest with
        | none => none
        | some (co, child2, rest2, cEvs) =>
          match includeExecF f (.menu t root (items.set idx child2)) rest2 with
          | none => none
          | some (o, n3, rest3, evs3) =>
            some (o, n3, rest3,
              rEvs ++ pEvs ++ Event.dispatch child.get_title :: cEvs ++ postOf co ++ evs3)
      else
        match includeExecF f (.menu t root items) rest with
        | none => none
        | some (o, n2, rest2, evs2) =>
          some (o, n2, rest2,
            rEvs ++ pEvs ++ Event.out "Invalid choice!\n" :: pauseEvs stdPauseMsg ++ evs2)

/-- The src-variant `execute` (`src/src/Menu/Menu.h` together with its
`ActionItem`), fuel-indexed: one unit of fuel per `Menu` loop iteration.
Per iteration: clear, render, print the prompt, read with `cin >> choice`; on
a parse failure clear the stream state, discard the line and loop (no
message); on `0` return `false`; on a valid 1-based index dispatch
`items[choice - 1]->execute()` with no try/catch (an escaping exception
propagates out of this `execute`) and no pause; otherwise print
`"Invalid choice"` and loop. -/
def srcExecF : Nat → MenuNode → List Input → Option Res
  | _, .actionItem t a, inputs =>
    let r := srcActionRun t a
    some (r.1, .actionItem t a, inputs, r.2)
  | 0, .menu _ _ _, _ => none
  | f + 1, .menu t root items, inputs =>
    let rEvs := renderEvs root items ++ [Event.out choicePrompt]
    match inputs with
    | [] => none
    | Input.junk :: rest =>
      match srcExecF f (.menu t root items) rest with
      | none => none
      | some (o, n2, r2, evs2) => some (o, n2, r2, rEvs ++ evs2)
    | Input.num choice :: rest =>
      if choice = 0 then
        some (.normal false, .menu t root items, rest, rEvs)
      else if 0 < choice ∧ choice ≤ (items.length : Int) then
        let idx := (choice - 1).toNat
        let child := items.getD idx defaultChild
        match srcExecF f child rest with
        | none => none
        | some (co, child2, rest2, cEvs) =>
          match co with
          | .thrown m =>
            some (.thrown m, .menu t root (items.set idx child2), rest2,
              rEvs ++ Event.dispatch child.get_title :: cEvs)
          | .normal _ =>
            match srcExecF f (.menu t root (items.set idx child2)) rest2 with
            | none => none
            | some (o, n3, r3, evs3) =>
              some (o, n3, r3, rEvs ++ Event.dispatch child.get_title :: cEvs ++ evs3)
      else
        match srcExecF f (.menu t root items) rest with
        | none => none
        | some (o, n2, r2, evs2) =>
          some (o, n2, r2, rEvs ++ Event.out "Invalid choice\n" :: evs2)

/-- Keep only the navigational events of a trace: which children were
dispatched and which callables were invoked. -/
def navOf : List Event → List Event
  | [] => []
  | Event.dispatch t :: l => Event.dispatch t :: navOf l
  | Event.invoke t :: l => Event.invoke t :: navOf l
  | Event.clearScreen :: l => navOf l
  | Event.out _ :: l => navOf l
  | Event.err _ :: l => navOf l
  | Event.keyWait :: l => navOf l

/-- Project a result to its navigational content: outcome, node, remaining
input, and the navigational events. -/
def proj (r : Res) : Outcome × MenuNode × List Input × List Event :=
  (r.1, r.2.1, r.2.2.1, navOf r.2.2.2)

/-- Events printed by the retry loop of `get_int_option` over `k` junk lines
followed by a successful read: prompt, diagnostic, …, prompt. -/
def retryEvs (p : String) : Nat → List Event
  | 0 => [Event.out p]
  | k + 1 => Event.out p :: Event.out diagMsg :: retryEvs p k

example : includeExecF 1 (.menu "M" true []) [.num 0] =
    some (.normal false, .menu "M" true [], [],
      [Event.clearScreen, Event.out "0. Exit\n", Event.out choicePrompt]) := by
  rfl

example : srcExecF 2 (.menu "M" false [.actionItem "A" .returns]) [.num 1, .num 0] =
    some (.normal false, .menu "M" false [.actionItem "A" .returns], [],
      [Event.clearScreen, Event.out "1. A\n", Event.out "0. Go back.\n",
       Event.out choicePrompt, Event.dispatch "A", Event.invoke "A", Event.keyWait,
       Event.clearScreen, Event.out "1. A\n", Event.out "0. Go back.\n",
       Event.out choicePrompt]) := by
  rfl

/-! ## Basic lemmas about traces and input parsing -/

theorem navOf_nil : navOf [] = [] := rfl

theorem navOf_append (a b : List Event) : navOf (a ++ b) = navOf a ++ navOf b := by
  induction a with
  | nil => rfl
  | cons e l ih => cases e <;> simp [navOf, ih]

theorem navOf_out (s : String) (l : List Event) : navOf (Event.out s :: l) = navOf l := rfl

theorem navOf_err (s : String) (l : List Event) : navOf (Event.err s :: l) = navOf l := rfl

theorem navOf_clear (l : List Event) : navOf (Event.clearScreen :: l) = navOf l := rfl

theorem navOf_dispatch (t : String) (l : List Event) :
    navOf (Event.dispatch t :: l) = Event.dispatch t :: navOf l := rfl

theorem navOf_invoke (t : String) (l : List Event) :
    navOf (Event.invoke t :: l) = Event.invoke t :: navOf l := rfl

theorem navOf_pauseEvs (m : String) (l : List Event) : navOf (pauseEvs m ++ l) = navOf l := rfl

theorem navOf_renderEvs (root : Bool) (items : List MenuNode) :
    navOf (renderEvs root items) = [] := by
  have h : ∀ l : List (Nat × MenuNode),
      navOf (l.map fun p => Event.out (toString (p.1 + 1) ++ ". " ++ p.2.get_title ++ "\n"))
        = [] := by
    intro l
    induction l with
    | nil => rfl
    | cons x xs ih => simpa [navOf] using ih
  simp only [renderEvs]
  rw [navOf_append, navOf_clear, h]
  cases root <;> rfl

theorem navOf_retryEvs (p : String) (k : Nat) : navOf (retryEvs p k) = [] := by
  induction k with
  | zero => rfl
  | succ k ih => simpa [retryEvs, navOf] using ih

theorem navOf_srcAction (t : String) (a : ActKind) :
    navOf (srcActionRun t a).2 = navOf (includeActionRun t a).2 := by
  cases a <;> rfl

/-- `get_int_option` on a line parsing as `n`: returns `n`, the rest, and the
prompt event. -/
theorem get_int_option_num (p : String) (n : Int) (rest : List Input) :
    get_int_option p (Input.num n :: rest) = some (n, rest, [Event.out p]) := rfl

/-- `get_int_option` retries through `k` unparseable lines and returns the
first integer after them, having printed `k` diagnostics. -/
theorem get_int_option_retry (p : String) (k : Nat) (n : Int) (rest : List Input) :
    get_int_option p (List.replicate k Input.junk ++ Input.num n :: rest)
      = some (n, rest, retryEvs p k) := by
  induction k with
  | zero => rfl
  | succ k ih => simp [List.replicate, get_int_option, ih, retryEvs]

/-- On unparseable lines only, `get_int_option` never returns. -/
theorem get_int_option_junk_only (p : String) (k : Nat) :
    get_int_option p (List.replicate k Input.junk) = none := by
  induction k with
  | zero => rfl
  | succ k ih => simp [List.replicate, get_int_option, ih]

/-- Inversion: a successful `get_int_option` call consumed some run of `k`
unparseable lines followed by the returned integer's line. -/
theorem get_int_option_inv (p : String) :
    ∀ (inputs : List Input) (c : Int) (rest : List Input) (evs : List Event),
      get_int_option p inputs = some (c, rest, evs) →
      ∃ k, inputs = List.replicate k Input.junk ++ Input.num c :: rest ∧ evs = retryEvs p k := by
  intro inputs
  induction inputs with
  | nil => intro c rest evs h; simp [get_int_option] at h
  | cons i tl ih =>
    intro c rest evs h
    cases i with
    | num n =>
      refine ⟨0, ?_⟩
      simp [get_int_option] at h
      obtain ⟨h1, h2, h3⟩ := h
      subst h1; subst h2; subst h3
      exact ⟨rfl, rfl⟩
    | junk =>
      rw [get_int_option] at h
      cases hg : get_int_option p tl with
      | none => rw [hg] at h; simp at h
      | some v =>
        obtain ⟨n, r, evs0⟩ := v
        rw [hg] at h
        simp at h
        obtain ⟨h1, h2, h3⟩ := h
        subst h1; subst h2
        obtain ⟨k, hk, he⟩ := ih n r evs0 hg
        refine ⟨k + 1, ?_, ?_⟩
        · simp [List.replicate, hk]
        · simp [retryEvs, ← h3, he]

/-- Writing back the element read at an in-bounds position leaves the list
unchanged. -/
theorem set_getD_self :
    ∀ (l : List MenuNode) (i : Nat) (d : MenuNode), i < l.length → l.set i (l.getD i d) = l := by
  intro l
  induction l with
  | nil => intro i d h; simp at h
  | cons x xs ih =>
    intro i d h
    cases i with
    | zero => rfl
    | succ n =>
      have hn : n < xs.length := by simpa using h
      have h2 := ih n d hn
      show (x :: xs).set (n + 1) ((x :: xs).getD (n + 1) d) = x :: xs
      rw [List.getD_cons_succ, List.set_cons_succ, h2]

theorem navOf_postOf (co : Outcome) (l : List Event) : navOf (postOf co ++ l) = navOf l := by
  cases co <;> rfl

/-! ## Branch lemmas for the include-variant interpreter -/

theorem inc_get_none {f : Nat} {t : String} {root : Bool} {items : List MenuNode}
    {inputs : List Input} (hg : get_int_option choicePrompt inputs = none) :
    includeExecF (f + 1) (.menu t root items) inputs = none := by
  simp [includeExecF, hg]

theorem inc_zero {f : Nat} {t : String} {root : Bool} {items : List MenuNode}
    {inputs rest : List Input} {pEvs : List Event}
    (hg : get_int_option choicePrompt inputs = some (0, rest, pEvs)) :
    includeExecF (f + 1) (.menu t root items) inputs
      = some (.normal false, .menu t root items, rest, renderEvs root items ++ pEvs) := by
  simp [includeExecF, hg]

theorem inc_valid {f : Nat} {t : String} {root : Bool} {items : List MenuNode}
    {inputs rest : List Input} {c : Int} {pEvs : List Event}
    (hg : get_int_option choicePrompt inputs = some (c, rest, pEvs))
    (hc0 : c ≠ 0) (hv : 0 < c ∧ c ≤ (items.length : Int))
    {co : Outcome} {c2 : MenuNode} {r2 : List Input} {ce : List Event}
    (hch : includeExecF f (items.getD (c - 1).toNat defaultChild) rest = some (co, c2, r2, ce))
    {o : Outcome} {n3 : MenuNode} {r3 : List Input} {e3 : List Event}
    (hcont : includeExecF f (.menu t root (items.set (c - 1).toNat c2)) r2 = some (o, n3, r3, e3)) :
    includeExecF (f + 1) (.menu t root items) inputs
      = some (o, n3, r3,
          renderEvs root items ++ pEvs
            ++ Event.dispatch (items.getD (c - 1).toNat defaultChild).get_title
              :: ce ++ postOf co ++ e3) := by
  simp only [includeExecF, hg, if_neg hc0, if_pos hv, hch, hcont]

theorem inc_valid_child_none {f : Nat} {t : String} {root : Bool} {items : List MenuNode}
    {inputs rest : List Input} {c : Int} {pEvs : List Event}
    (hg : get_int_option choicePrompt inputs = some (c, rest, pEvs))
    (hc0 : c ≠ 0) (hv : 0 < c ∧ c ≤ (items.length : Int))
    (hch : includeExecF f (items.getD (c - 1).toNat defaultChild) rest = none) :
    includeExecF (f + 1) (.menu t root items) inputs = none := by
  simp only [includeExecF, hg, if_neg hc0, if_pos hv, hch]

theorem inc_valid_cont_none {f : Nat} {t : String} {root : Bool} {items : List MenuNode}
    {inputs rest : List Input} {c : Int} {pEvs : List Event}
    (hg : get_int_option choicePrompt inputs = some (c, rest, pEvs))
    (hc0 : c ≠ 0) (hv : 0 < c ∧ c ≤ (items.length : Int))
    {co : Outcome} {c2 : MenuNode} {r2 : List Input} {ce : List Event}
    (hch : includeExecF f (items.getD (c - 1).toNat defaultChild) rest = some (co, c2, r2, ce))
    (hcont : includeExecF f (.menu t root (items.set (c - 1).toNat c2)) r2 = none) :
    includeExecF (f + 1) (.menu t root items) inputs = none := by
  simp only [includeExecF, hg, if_neg hc0, if_pos hv, hch, hcont]

theorem inc_invalid {f : Nat} {t : String} {root : Bool} {items : List MenuNode}
    {inputs rest : List Input} {c : Int} {pEvs : List Event}
    (hg : get_int_option choicePrompt inputs = some (c, rest, pEvs))
    (hc0 : c ≠ 0) (hv : ¬(0 < c ∧ c ≤ (items.length : Int)))
    {o : Outcome} {n2 : MenuNode} {r2 : List Input} {e2 : List Event}
    (hcont : includeExecF f (.menu t root items) rest = some (o, n2, r2, e2)) :
    includeExecF (f + 1) (.menu t root items) inputs
      = some (o, n2, r2,
          renderEvs root items ++ pEvs
            ++ Event.out "Invalid choice!\n" :: pauseEvs stdPauseMsg ++ e2) := by
  simp [includeExecF, hg, hc0, hv, hcont]

theorem inc_invalid_none {f : Nat} {t : String} {root : Bool} {items : List MenuNode}
    {inputs rest : List Input} {c : Int} {pEvs : List Event}
    (hg : get_int_option choicePrompt inputs = some (c, rest, pEvs))
    (hc0 : c ≠ 0) (hv : ¬(0 < c ∧ c ≤ (items.length : Int)))
    (hcont : includeExecF f (.menu t root items) rest = none) :
    includeExecF (f + 1) (.menu t root items) inputs = none := by
  simp [includeExecF, hg, hc0, hv, hcont]

/-! ## Branch lemmas for the src-variant interpreter -/

theorem src_menu_nil (f : Nat) (t : String) (root : Bool) (items : List MenuNode) :
    srcExecF f (.menu t root items) [] = none := by
  cases f <;> simp [srcExecF]

theorem src_junk {f : Nat} {t : String} {root : Bool} {items : List MenuNode}
    {rest : List Input}
    {o : Outcome} {n2 : MenuNode} {r2 : List Input} {e2 : List Event}
    (hcont : srcExecF f (.menu t root items) rest = some (o, n2, r2, e2)) :
    srcExecF (f + 1) (.menu t root items) (Input.junk :: rest)
      = some (o, n2, r2, (renderEvs root items ++ [Event.out choicePrompt]) ++ e2) := by
  simp [srcExecF, hcont]

theorem src_junk_none {f : Nat} {t : String} {root : Bool} {items : List MenuNode}
    {rest : List Input} (hcont : srcExecF f (.menu t root items) rest = none) :
    srcExecF (f + 1) (.menu t root items) (Input.junk :: rest) = none := by
  simp [srcExecF, hcont]

theorem src_zero (f : Nat) (t : String) (root : Bool) (items : List MenuNode)
    (rest : List Input) :
    srcExecF (f + 1) (.menu t root items) (Input.num 0 :: rest)
      = some (.normal false, .menu t root items, rest,
          renderEvs root items ++ [Event.out choicePrompt]) := by
  simp [srcExecF]

theorem src_valid_normal {f : Nat} {t : String} {root : Bool} {items : List MenuNode}
    {rest : List Input} {c : Int}
    (hc0 : c ≠ 0) (hv : 0 < c ∧ c ≤ (items.length : Int))
    {b : Bool} {c2 : MenuNode} {r2 : List Input} {ce : List Event}
    (hch : srcExecF f (items.getD (c - 1).toNat defaultChild) rest = some (.normal b, c2, r2, ce))
    {o : Outcome} {n3 : MenuNode} {r3 : List Input} {e3 : List Event}
    (hcont : srcExecF f (.menu t root (items.set (c - 1).toNat c2)) r2 = some (o, n3, r3, e3)) :
    srcExecF (f + 1) (.menu t root items) (Input.num c :: rest)
      = some (o, n3, r3,
          (renderEvs root items ++ [Event.out choicePrompt])
            ++ Event.dispatch (items.getD (c - 1).toNat defaultChild).get_title :: ce ++ e3) := by
  simp only [srcExecF, if_neg hc0, if_pos hv, hch, hcont]

theorem src_valid_normal_cont_none {f : Nat} {t : String} {root : Bool} {items : List MenuNode}
    {rest : List Input} {c : Int}
    (hc0 : c ≠ 0) (hv : 0 < c ∧ c ≤ (items.length : Int))
    {b : Bool} {c2 : MenuNode} {r2 : List Input} {ce : List Event}
    (hch : srcExecF f (items.getD (c - 1).toNat defaultChild) rest = some (.normal b, c2, r2, ce))
    (hcont : srcExecF f (.menu t root (items.set (c - 1).toNat c2)) r2 = none) :
    srcExecF (f + 1) (.menu t root items) (Input.num c :: rest) = none := by
  simp only [srcExecF, if_neg hc0, if_pos hv, hch, hcont]

theorem src_valid_child_none {f : Nat} {t : String} {root : Bool} {items : List MenuNode}
    {rest : List Input} {c : Int}
    (hc0 : c ≠ 0) (hv : 0 < c ∧ c ≤ (items.length : Int))
    (hch : srcExecF f (items.getD (c - 1).toNat defaultChild) rest = none) :
    srcExecF (f + 1) (.menu t root items) (Input.num c :: rest) = none := by
  simp only [srcExecF, if_neg hc0, if_pos hv, hch]

theorem src_valid_thrown {f : Nat} {t : String} {root : Bool} {items : List MenuNode}
    {rest : List Input} {c : Int}
    (hc0 : c ≠ 0) (hv : 0 < c ∧ c ≤ (items.length : Int))
    {m : String} {c2 : MenuNode} {r2 : List Input} {ce : List Event}
    (hch : srcExecF f (items.getD (c - 1).toNat defaultChild) rest = some (.thrown m, c2, r2, ce)) :
    srcExecF (f + 1) (.menu t root items) (Input.num c :: rest)
      = some (.thrown m, .menu t root (items.set (c - 1).toNat c2), r2,
          (renderEvs root items ++ [Event.out choicePrompt])
            ++ Event.dispatch (items.getD (c - 1).toNat defaultChild).get_title :: ce) := by
  simp only [srcExecF, if_neg hc0, if_pos hv, hch]

theorem src_invalid {f : Nat} {t : String} {root : Bool} {items : List MenuNode}
    {rest : List Input} {c : Int}
    (hc0 : c ≠ 0) (hv : ¬(0 < c ∧ c ≤ (items.length : Int)))
    {o : Outcome} {n2 : MenuNode} {r2 : List Input} {e2 : List Event}
    (hcont : srcExecF f (.menu t root items) rest = some (o, n2, r2, e2)) :
    srcExecF (f + 1) (.menu t root items) (Input.num c :: rest)
      = some (o, n2, r2,
          (renderEvs root items ++ [Event.out choicePrompt])
            ++ Event.out "Invalid choice\n" :: e2) := by
  simp [srcExecF, hc0, hv, hcont]

theorem src_invalid_none {f : Nat} {t : String} {root : Bool} {items : List MenuNode}
    {rest : List Input} {c : Int}
    (hc0 : c ≠ 0) (hv : ¬(0 < c ∧ c ≤ (items.length : Int)))
    (hcont : srcExecF f (.menu t root items) rest = none) :
    srcExecF (f + 1) (.menu t root items) (Input.num c :: rest) = none := by
  simp [srcExecF, hc0, hv, hcont]

/-- A valid choice `c` (`0 < c ≤ |items|`) indexes inside the children list. -/
theorem idx_lt {c : Int} {n : Nat} (h1 : 0 < c) (h2 : c ≤ (n : Int)) : (c - 1).toNat < n := by
  omega

/-- Inversion of one successful include-variant `Menu` step. -/
theorem inc_inv {f : Nat} {t : String} {root : Bool} {items : List MenuNode}
    {inputs : List Input} {r : Res}
    (h : includeExecF (f + 1) (.menu t root items) inputs = some r) :
    ∃ c rest pEvs, get_int_option choicePrompt inputs = some (c, rest, pEvs) ∧
      ((c = 0 ∧
          r = (Outcome.normal false, MenuNode.menu t root items, rest,
            renderEvs root items ++ pEvs))
       ∨ (c ≠ 0 ∧ (0 < c ∧ c ≤ (items.length : Int)) ∧
           ∃ co c2 r2 ce o n3 r3 e3,
             includeExecF f (items.getD (c - 1).toNat defaultChild) rest = some (co, c2, r2, ce) ∧
             includeExecF f (.menu t root (items.set (c - 1).toNat c2)) r2 = some (o, n3, r3, e3) ∧
             r = (o, n3, r3,
               renderEvs root items ++ pEvs
                 ++ Event.dispatch (items.getD (c - 1).toNat defaultChild).get_title
                   :: ce ++ postOf co ++ e3))
       ∨ (c ≠ 0 ∧ ¬(0 < c ∧ c ≤ (items.length : Int)) ∧
           ∃ o n2 r2 e2,
             includeExecF f (.menu t root items) rest = some (o, n2, r2, e2) ∧
             r = (o, n2, r2,
               renderEvs root items ++ pEvs
                 ++ Event.out "Invalid choice!\n" :: pauseEvs stdPauseMsg ++ e2))) := by
  cases hg : get_int_option choicePrompt inputs with
  | none => rw [inc_get_none hg] at h; cases h
  | some v =>
    obtain ⟨c, rest, pEvs⟩ := v
    refine ⟨c, rest, pEvs, rfl, ?_⟩
    by_cases hc0 : c = 0
    · subst hc0
      rw [inc_zero hg] at h
      injection h with h
      exact Or.inl ⟨rfl, h.symm⟩
    · by_cases hv : 0 < c ∧ c ≤ (items.length : Int)
      · cases hch : includeExecF f (items.getD (c - 1).toNat defaultChild) rest with
        | none => rw [inc_valid_child_none hg hc0 hv hch] at h; cases h
        | some rc =>
          obtain ⟨co, c2, r2, ce⟩ := rc
          cases hcont : includeExecF f (.menu t root (items.set (c - 1).toNat c2)) r2 with
          | none => rw [inc_valid_cont_none hg hc0 hv hch hcont] at h; cases h
          | some rk =>
            obtain ⟨o, n3, r3, e3⟩ := rk
            rw [inc_valid hg hc0 hv hch hcont] at h
            injection h with h
            exact Or.inr (Or.inl ⟨hc0, hv, co, c2, r2, ce, o, n3, r3, e3, rfl, hcont, h.symm⟩)
      · cases hcont : includeExecF f (.menu t root items) rest with
        | none => rw [inc_invalid_none hg hc0 hv hcont] at h; cases h
        | some rk =>
          obtain ⟨o, n2, r2, e2⟩ := rk
          rw [inc_invalid hg hc0 hv hcont] at h
          injection h with h
          exact Or.inr (Or.inr ⟨hc0, hv, o, n2, r2, e2, rfl, h.symm⟩)

/-- Inversion of one successful src-variant `Menu` step. -/
theorem src_inv {f : Nat} {t : String} {root : Bool} {items : List MenuNode}
    {inputs : List Input} {r : Res}
    (h : srcExecF (f + 1) (.menu t root items) inputs = some r) :
    (∃ rest o n2 r2 e2, inputs = Input.junk :: rest ∧
        srcExecF f (.menu t root items) rest = some (o, n2, r2, e2) ∧
        r = (o, n2, r2, (renderEvs root items ++ [Event.out choicePrompt]) ++ e2))
    ∨ (∃ rest, inputs = Input.num 0 :: rest ∧
        r = (Outcome.normal false, MenuNode.menu t root items, rest,
          renderEvs root items ++ [Event.out choicePrompt]))
    ∨ (∃ c rest, inputs = Input.num c :: rest ∧ c ≠ 0 ∧ (0 < c ∧ c ≤ (items.length : Int)) ∧
        ((∃ b c2 r2 ce o n3 r3 e3,
            srcExecF f (items.getD (c - 1).toNat defaultChild) rest
              = some (Outcome.normal b, c2, r2, ce) ∧
            srcExecF f (.menu t root (items.set (c - 1).toNat c2)) r2 = some (o, n3, r3, e3) ∧
            r = (o, n3, r3,
              (renderEvs root items ++ [Event.out choicePrompt])
                ++ Event.dispatch (items.getD (c - 1).toNat defaultChild).get_title :: ce ++ e3))
         ∨ (∃ m c2 r2 ce,
             srcExecF f (items.getD (c - 1).toNat defaultChild) rest
               = some (Outcome.thrown m, c2, r2, ce) ∧
             r = (Outcome.thrown m, MenuNode.menu t root (items.set (c - 1).toNat c2), r2,
               (renderEvs root items ++ [Event.out choicePrompt])
                 ++ Event.dispatch (items.getD (c - 1).toNat defaultChild).get_title :: ce))))
    ∨ (∃ c rest o n2 r2 e2, inputs = Input.num c :: rest ∧ c ≠ 0 ∧
        ¬(0 < c ∧ c ≤ (items.length : Int)) ∧
        srcExecF f (.menu t root items) rest = some (o, n2, r2, e2) ∧
        r = (o, n2, r2,
          (renderEvs root items ++ [Event.out choicePrompt])
            ++ Event.out "Invalid choice\n" :: e2)) := by
  cases inputs with
  | nil => rw [src_menu_nil] at h; cases h
  | cons i rest =>
    cases i with
    | junk =>
      cases hcont : srcExecF f (.menu t root items) rest with
      | none => rw [src_junk_none hcont] at h; cases h
      | some rk =>
        obtain ⟨o, n2, r2, e2⟩ := rk
        rw [src_junk hcont] at h
        injection h with h
        exact Or.inl ⟨rest, o, n2, r2, e2, rfl, hcont, h.symm⟩
    | num c =>
      by_cases hc0 : c = 0
      · subst hc0
        rw [src_zero] at h
        injection h with h
        exact Or.inr (Or.inl ⟨rest, rfl, h.symm⟩)
      · by_cases hv : 0 < c ∧ c ≤ (items.length : Int)
        · cases hch : srcExecF f (items.getD (c - 1).toNat defaultChild) rest with
          | none => rw [src_valid_child_none hc0 hv hch] at h; cases h
          | some rc =>
            obtain ⟨co, c2, r2, ce⟩ := rc
            cases co with
            | normal b =>
              cases hcont : srcExecF f (.menu t root (items.set (c - 1).toNat c2)) r2 with
              | none => rw [src_valid_normal_cont_none hc0 hv hch hcont] at h; cases h
              | some rk =>
                obtain ⟨o, n3, r3, e3⟩ := rk
                rw [src_valid_normal hc0 hv hch hcont] at h
                injection h with h
                exact Or.inr (Or.inr (Or.inl ⟨c, rest, rfl, hc0, hv,
                  Or.inl ⟨b, c2, r2, ce, o, n3, r3, e3, hch, hcont, h.symm⟩⟩))
            | thrown m =>
              rw [src_valid_thrown hc0 hv hch] at h
              injection h with h
              exact Or.inr (Or.inr (Or.inl ⟨c, rest, rfl, hc0, hv,
                Or.inr ⟨m, c2, r2, ce, hch, h.symm⟩⟩))
        · cases hcont : srcExecF f (.menu t root items) rest with
          | none => rw [src_invalid_none hc0 hv hcont] at h; cases h
          | some rk =>
            obtain ⟨o, n2, r2, e2⟩ := rk
            rw [src_invalid hc0 hv hcont] at h
            injection h with h
            exact Or.inr (Or.inr (Or.inr ⟨c, rest, o, n2, r2, e2, rfl, hc0, hv, hcont, h.symm⟩))

/-- `ActionItem::execute` in the include variant, for any fuel. -/
theorem includeExecF_leaf (f : Nat) (t : String) (a : ActKind) (inputs : List Input) :
    includeExecF f (.actionItem t a) inputs
      = some ((includeActionRun t a).1, .actionItem t a, inputs, (includeActionRun t a).2) := by
  cases f <;> rfl

/-- `ActionItem::execute` in the src variant, for any fuel. -/
theorem srcExecF_leaf (f : Nat) (t : String) (a : ActKind) (inputs : List Input) :
    srcExecF f (.actionItem t a) inputs
      = some ((srcActionRun t a).1, .actionItem t a, inputs, (srcActionRun t a).2) := by
  cases f <;> rfl

/-! ## Fuel monotonicity -/

theorem inc_mono : ∀ (f : Nat) (node : MenuNode) (inputs : List Input) (r : Res),
    includeExecF f node inputs = some r → includeExecF (f + 1) node inputs = some r := by
  intro f
  induction f with
  | zero =>
    intro node inputs r h
    cases node with
    | actionItem t a => exact h
    | menu t root items => simp [includeExecF] at h
  | succ f ih =>
    intro node inputs r h
    cases node with
    | actionItem t a => exact h
    | menu t root items =>
      obtain ⟨c, rest, pEvs, hg, hbr⟩ := inc_inv h
      rcases hbr with ⟨hc0, hr⟩
        | ⟨hc0, hv, co, c2, r2, ce, o, n3, r3, e3, hch, hcont, hr⟩
        | ⟨hc0, hv, o, n2, r2, e2, hcont, hr⟩
      · subst hc0; subst hr; exact inc_zero hg
      · subst hr; exact inc_valid hg hc0 hv (ih _ _ _ hch) (ih _ _ _ hcont)
      · subst hr; exact inc_invalid hg hc0 hv (ih _ _ _ hcont)

theorem inc_mono_le {f g : Nat} {node : MenuNode} {inputs : List Input} {r : Res}
    (hfg : f ≤ g) (h : includeExecF f node inputs = some r) :
    includeExecF g node inputs = some r := by
  induction hfg with
  | refl => exact h
  | step _ ih => exact inc_mono _ _ _ _ ih

theorem src_mono : ∀ (f : Nat) (node : MenuNode) (inputs : List Input) (r : Res),
    srcExecF f node inputs = some r → srcExecF (f + 1) node inputs = some r := by
  intro f
  induction f with
  | zero =>
    intro node inputs r h
    cases node with
    | actionItem t a => exact h
    | menu t root items => simp [srcExecF] at h
  | succ f ih =>
    intro node inputs r h
    cases node with
    | actionItem t a => exact h
    | menu t root items =>
      rcases src_inv h with ⟨rest, o, n2, r2, e2, hin, hcont, hr⟩
        | ⟨rest, hin, hr⟩
        | ⟨c, rest, hin, hc0, hv, hbr⟩
        | ⟨c, rest, o, n2, r2, e2, hin, hc0, hv, hcont, hr⟩
      · subst hin; subst hr; exact src_junk (ih _ _ _ hcont)
      · subst hin; subst hr; exact src_zero _ _ _ _ _
      · subst hin
        rcases hbr with ⟨b, c2, r2, ce, o, n3, r3, e3, hch, hcont, hr⟩
          | ⟨m, c2, r2, ce, hch, hr⟩
        · subst hr; exact src_valid_normal hc0 hv (ih _ _ _ hch) (ih _ _ _ hcont)
        · subst hr; exact src_valid_thrown hc0 hv (ih _ _ _ hch)
      · subst hin; subst hr; exact src_invalid hc0 hv (ih _ _ _ hcont)

theorem src_mono_le {f g : Nat} {node : MenuNode} {inputs : List Input} {r : Res}
    (hfg : f ≤ g) (h : srcExecF f node inputs = some r) :
    srcExecF g node inputs = some r := by
  induction hfg with
  | refl => exact h
  | step _ ih => exact src_mono _ _ _ _ ih

/-! ## `execute` leaves the node unchanged -/

theorem inc_preserve : ∀ (f : Nat) (node : MenuNode) (inputs : List Input)
    (o : Outcome) (n : MenuNode) (rest : List Input) (evs : List Event),
    includeExecF f node inputs = some (o, n, rest, evs) → n = node := by
  intro f
  induction f with
  | zero =>
    intro node inputs o n rest evs h
    cases node with
    | actionItem t a =>
      exact (congrArg (fun x : Res => x.2.1) (Option.some.inj h)).symm
    | menu t root items => simp [includeExecF] at h
  | succ f ih =>
    intro node inputs o n rest evs h
    cases node with
    | actionItem t a =>
      exact (congrArg (fun x : Res => x.2.1) (Option.some.inj h)).symm
    | menu t root items =>
      obtain ⟨c, rest', pEvs, hg, hbr⟩ := inc_inv h
      rcases hbr with ⟨hc0, hr⟩
        | ⟨hc0, hv, co, c2, r2, ce, o', n3, r3, e3, hch, hcont, hr⟩
        | ⟨hc0, hv, o', n2, r2, e2, hcont, hr⟩
      · exact congrArg (fun x : Res => x.2.1) hr
      · have hc2 : c2 = items.getD (c - 1).toNat defaultChild := ih _ _ _ _ _ _ hch
        have hn3 : n3 = .menu t root (items.set (c - 1).toNat c2) := ih _ _ _ _ _ _ hcont
        have hset : items.set (c - 1).toNat c2 = items := by
          rw [hc2]
          exact set_getD_self items _ defaultChild (idx_lt hv.1 hv.2)
        have hn : n = n3 := congrArg (fun x : Res => x.2.1) hr
        rw [hn, hn3, hset]
      · have hn2 : n2 = .menu t root items := ih _ _ _ _ _ _ hcont
        have hn : n = n2 := congrArg (fun x : Res => x.2.1) hr
        rw [hn, hn2]

theorem src_preserve : ∀ (f : Nat) (node : MenuNode) (inputs : List Input)
    (o : Outcome) (n : MenuNode) (rest : List Input) (evs : List Event),
    srcExecF f node inputs = some (o, n, rest, evs) → n = node := by
  intro f
  induction f with
  | zero =>
    intro node inputs o n rest evs h
    cases node with
    | actionItem t a =>
      exact (congrArg (fun x : Res => x.2.1) (Option.some.inj h)).symm
    | menu t root items => simp [srcExecF] at h
  | succ f ih =>
    intro node inputs o n rest evs h
    cases node with
    | actionItem t a =>
      exact (congrArg (fun x : Res => x.2.1) (Option.some.inj h)).symm
    | menu t root items =>
      rcases src_inv h with ⟨rest', o', n2, r2, e2, hin, hcont, hr⟩
        | ⟨rest', hin, hr⟩
        | ⟨c, rest', hin, hc0, hv, hbr⟩
        | ⟨c, rest', o', n2, r2, e2, hin, hc0, hv, hcont, hr⟩
      · have hn2 : n2 = .menu t root items := ih _ _ _ _ _ _ hcont
        have hn : n = n2 := congrArg (fun x : Res => x.2.1) hr
        rw [hn, hn2]
      · exact congrArg (fun x : Res => x.2.1) hr
      · rcases hbr with ⟨b, c2, r2, ce, o', n3, r3, e3, hch, hcont, hr⟩
          | ⟨m, c2, r2, ce, hch, hr⟩
        · have hc2 : c2 = items.getD (c - 1).toNat defaultChild := ih _ _ _ _ _ _ hch
          have hn3 : n3 = .menu t root (items.set (c - 1).toNat c2) := ih _ _ _ _ _ _ hcont
          have hset : items.set (c - 1).toNat c2 = items := by
            rw [hc2]
            exact set_getD_self items _ defaultChild (idx_lt hv.1 hv.2)
          have hn : n = n3 := congrArg (fun x : Res => x.2.1) hr
          rw [hn, hn3, hset]
        · have hc2 : c2 = items.getD (c - 1).toNat defaultChild := ih _ _ _ _ _ _ hch
          have hset : items.set (c - 1).toNat c2 = items := by
            rw [hc2]
            exact set_getD_self items _ defaultChild (idx_lt hv.1 hv.2)
          have hn : n = .menu t root (items.set (c - 1).toNat c2) :=
            congrArg (fun x : Res => x.2.1) hr
          rw [hn, hset]
      · have hn2 : n2 = .menu t root items := ih _ _ _ _ _ _ hcont
        have hn : n = n2 := congrArg (fun x : Res => x.2.1) hr
        rw [hn, hn2]

/-! ## A `Menu` run, when it returns at all, returns `false` -/

theorem inc_menu_false : ∀ (f : Nat) (node : MenuNode) (inputs : List Input)
    (o : Outcome) (n : MenuNode) (rest : List Input) (evs : List Event),
    (∃ t root items, node = MenuNode.menu t root items) →
    includeExecF f node inputs = some (o, n, rest, evs) → o = .normal false := by
  intro f
  induction f with
  | zero =>
    intro node inputs o n rest evs hm h
    obtain ⟨t, root, items, rfl⟩ := hm
    simp [includeExecF] at h
  | succ f ih =>
    intro node inputs o n rest evs hm h
    obtain ⟨t, root, items, rfl⟩ := hm
    obtain ⟨c, rest', pEvs, hg, hbr⟩ := inc_inv h
    rcases hbr with ⟨hc0, hr⟩
      | ⟨hc0, hv, co, c2, r2, ce, o', n3, r3, e3, hch, hcont, hr⟩
      | ⟨hc0, hv, o', n2, r2, e2, hcont, hr⟩
    · exact congrArg (fun x : Res => x.1) hr
    · have ho : o = o' := congrArg (fun x : Res => x.1) hr
      rw [ho]
      exact ih _ _ _ _ _ _ ⟨_, _, _, rfl⟩ hcont
    · have ho : o = o' := congrArg (fun x : Res => x.1) hr
      rw [ho]
      exact ih _ _ _ _ _ _ ⟨_, _, _, rfl⟩ hcont

theorem src_menu_false : ∀ (f : Nat) (node : MenuNode) (inputs : List Input)
    (o : Outcome) (n : MenuNode) (rest : List Input) (evs : List Event),
    (∃ t root items, node = MenuNode.menu t root items) →
    srcExecF f node inputs = some (o, n, rest, evs) → o = .normal false := by
  intro f
  induction f with
  | zero =>
    intro node inputs o n rest evs hm h
    obtain ⟨t, root, items, rfl⟩ := hm
    simp [srcExecF] at h
  | succ f ih =>
    intro node inputs o n rest evs hm h
    obtain ⟨t, root, items, rfl⟩ := hm
    rcases src_inv h with ⟨rest', o', n2, r2, e2, hin, hcont, hr⟩
      | ⟨rest', hin, hr⟩
      | ⟨c, rest', hin, hc0, hv, hbr⟩
      | ⟨c, rest', o', n2, r2, e2, hin, hc0, hv, hcont, hr⟩
    · have ho : o = o' := congrArg (fun x : Res => x.1) hr
      rw [ho]
      exact ih _ _ _ _ _ _ ⟨_, _, _, rfl⟩ hcont
    · exact congrArg (fun x : Res => x.1) hr
    · rcases hbr with ⟨b, c2, r2, ce, o', n3, r3, e3, hch, hcont, hr⟩
        | ⟨m, c2, r2, ce, hch, hr⟩
      · have ho : o = o' := congrArg (fun x : Res => x.1) hr
        rw [ho]
        exact ih _ _ _ _ _ _ ⟨_, _, _, rfl⟩ hcont
      · -- a thrown child outcome: impossible, children are leaves (which catch)
        -- or menus (which return normally by induction)
        exfalso
        cases hcd : items.getD (c - 1).toNat defaultChild with
        | actionItem tc ac =>
          rw [hcd, srcExecF_leaf] at hch
          cases ac <;>
            exact Outcome.noConfusion (congrArg (fun x : Res => x.1) (Option.some.inj hch))
        | menu tc rc ic =>
          rw [hcd] at hch
          have := ih _ _ _ _ _ _ ⟨_, _, _, rfl⟩ hch
          simp at this
    · have ho : o = o' := congrArg (fun x : Res => x.1) hr
      rw [ho]
      exact ih _ _ _ _ _ _ ⟨_, _, _, rfl⟩ hcont

/-! ## Cross-variant simulation infrastructure -/

theorem res_eq {o o' : Outcome} {n n' : MenuNode} {r r' : List Input} {e e' : List Event}
    (h : ((o, n, r, e) : Res) = (o', n', r', e')) : o = o' ∧ n = n' ∧ r = r' ∧ e = e' :=
  ⟨congrArg (fun x : Res => x.1) h, congrArg (fun x : Res => x.2.1) h,
   congrArg (fun x : Res => x.2.2.1) h, congrArg (fun x : Res => x.2.2.2) h⟩

theorem navOf_keyWait (l : List Event) : navOf (Event.keyWait :: l) = navOf l := rfl

theorem navOf_pausePlain (m : String) : navOf (pauseEvs m) = [] := rfl

theorem navOf_postPlain (co : Outcome) : navOf (postOf co) = [] := by
  cases co <;> rfl

/-- The src-variant `ActionItem::execute` always returns `true` (its catch
block swallows any escaping error). -/
theorem srcActionRun_fst (t : String) (a : ActKind) :
    (srcActionRun t a).1 = Outcome.normal true := by
  cases a <;> rfl

theorem get_int_option_junk {p : String} {rest : List Input} {c : Int} {r : List Input}
    {evs : List Event} (h : get_int_option p rest = some (c, r, evs)) :
    get_int_option p (Input.junk :: rest)
      = some (c, r, Event.out p :: Event.out diagMsg :: evs) := by
  simp [get_int_option, h]

/-- A run of `k` unparseable lines in front of the input costs the src-variant
loop `k` extra iterations and only presentation events. -/
theorem src_junk_star : ∀ (k : Nat) {g : Nat} {t : String} {root : Bool}
    {items : List MenuNode} {rest : List Input} {o : Outcome} {n : MenuNode}
    {r2 : List Input} {evs : List Event},
    srcExecF g (.menu t root items) rest = some (o, n, r2, evs) →
    ∃ evs2, srcExecF (g + k) (.menu t root items) (List.replicate k Input.junk ++ rest)
        = some (o, n, r2, evs2) ∧ navOf evs2 = navOf evs := by
  intro k
  induction k with
  | zero =>
    intro g t root items rest o n r2 evs h
    exact ⟨evs, by simpa using h, rfl⟩
  | succ k ih =>
    intro g t root items rest o n r2 evs h
    obtain ⟨evs2, h2, hnav⟩ := ih h
    refine ⟨(renderEvs root items ++ [Event.out choicePrompt]) ++ evs2, ?_, ?_⟩
    · have h3 := src_junk h2
      have hrep : List.replicate (k + 1) Input.junk ++ rest
          = Input.junk :: (List.replicate k Input.junk ++ rest) := by
        simp [List.replicate]
      rw [hrep]
      have hfe : g + (k + 1) = (g + k) + 1 := rfl
      rw [hfe]
      exact h3
    · simp [navOf_append, navOf_renderEvs, navOf_out, navOf_nil, hnav]

/-- One unparseable line in front of the input is transparent to the
include-variant loop (the retry happens inside `get_int_option`):
same result, same navigation. -/
theorem inc_junk {f : Nat} {t : String} {root : Bool} {items : List MenuNode}
    {rest : List Input} {o : Outcome} {n : MenuNode} {r2 : List Input} {evs : List Event}
    (h : includeExecF (f + 1) (.menu t root items) rest = some (o, n, r2, evs)) :
    ∃ evs2, includeExecF (f + 1) (.menu t root items) (Input.junk :: rest)
        = some (o, n, r2, evs2) ∧ navOf evs2 = navOf evs := by
  obtain ⟨c, rest1, pEvs, hg, hbr⟩ := inc_inv h
  rcases hbr with ⟨hc0, hr⟩
    | ⟨hc0, hv, co, c2, rr2, ce, o3, n3, r3, e3, hch, hcont, hr⟩
    | ⟨hc0, hv, o2, n2, rr2, e2, hcont, hr⟩
  · obtain ⟨rfl, rfl, rfl, rfl⟩ := res_eq hr
    subst hc0
    refine ⟨_, inc_zero (get_int_option_junk hg), ?_⟩
    simp [navOf_append, navOf_renderEvs, navOf_out]
  · obtain ⟨rfl, rfl, rfl, rfl⟩ := res_eq hr
    refine ⟨_, inc_valid (get_int_option_junk hg) hc0 hv hch hcont, ?_⟩
    simp [navOf_append, navOf_renderEvs, navOf_out, navOf_dispatch, navOf_postPlain]
  · obtain ⟨rfl, rfl, rfl, rfl⟩ := res_eq hr
    refine ⟨_, inc_invalid (get_int_option_junk hg) hc0 hv hcont, ?_⟩
    simp [navOf_append, navOf_renderEvs, navOf_out, navOf_pausePlain]

/-- Every terminating include-variant `Menu` run has a src-variant run with
the same outcome, same final node, same remaining input and the same
navigation trace. -/
theorem inc_to_src : ∀ (f : Nat) (t : String) (root : Bool) (items : List MenuNode)
    (inputs : List Input) (o : Outcome) (n : MenuNode) (rest : List Input) (evs : List Event),
    includeExecF f (.menu t root items) inputs = some (o, n, rest, evs) →
    ∃ g evs2, srcExecF g (.menu t root items) inputs = some (o, n, rest, evs2) ∧
      navOf evs2 = navOf evs := by
  intro f
  induction f with
  | zero =>
    intro t root items inputs o n rest evs h
    simp [includeExecF] at h
  | succ f ih =>
    intro t root items inputs o n rest evs h
    obtain ⟨c, rest1, pEvs, hg, hbr⟩ := inc_inv h
    obtain ⟨k, hk, hpe⟩ := get_int_option_inv choicePrompt inputs c rest1 pEvs hg
    subst hk
    subst hpe
    rcases hbr with ⟨hc0, hr⟩
      | ⟨hc0, hv, co, c2, r2, ce, o3, n3, r3, e3, hch, hcont, hr⟩
      | ⟨hc0, hv, o2, n2, r2, e2, hcont, hr⟩
    · obtain ⟨rfl, rfl, rfl, rfl⟩ := res_eq hr
      subst hc0
      obtain ⟨evs2, h2, hnav⟩ := src_junk_star k (src_zero 0 t root items rest)
      refine ⟨1 + k, evs2, h2, ?_⟩
      rw [hnav]
      simp [navOf_append, navOf_renderEvs, navOf_out, navOf_retryEvs, navOf_nil]
    · obtain ⟨rfl, rfl, rfl, rfl⟩ := res_eq hr
      obtain ⟨g2, evs3, hs3, hn3⟩ := ih _ _ _ _ _ _ _ _ hcont
      cases hcd : items.getD (c - 1).toNat defaultChild with
      | actionItem tc ac =>
        rw [hcd, includeExecF_leaf] at hch
        obtain ⟨hco, hc2, hrr, hce⟩ := res_eq (Option.some.inj hch)
        subst hco; subst hc2; subst hrr; subst hce
        have hch' : srcExecF g2 (items.getD (c - 1).toNat defaultChild) rest1
            = some (.normal true, .actionItem tc ac, rest1, (srcActionRun tc ac).2) := by
          rw [hcd, srcExecF_leaf, srcActionRun_fst]
        have step := src_valid_normal hc0 hv hch' hs3
        obtain ⟨evs4, h4, hnav4⟩ := src_junk_star k step
        refine ⟨(g2 + 1) + k, evs4, h4, ?_⟩
        have hcd2 := hcd
        simp at hcd2
        rw [hnav4]
        simp [navOf_append, navOf_renderEvs, navOf_retryEvs, navOf_out, navOf_dispatch,
          navOf_postPlain, navOf_srcAction, hn3, hcd2]
      | menu tc rc ic =>
        rw [hcd] at hch
        have hco : co = .normal false := inc_menu_false f _ _ _ _ _ _ ⟨_, _, _, rfl⟩ hch
        subst hco
        obtain ⟨g1, cevs2, hsc, hnavc⟩ := ih _ _ _ _ _ _ _ _ hch
        have hsc' := src_mono_le (Nat.le_max_left g1 g2) hsc
        have hs3' := src_mono_le (Nat.le_max_right g1 g2) hs3
        have hch' : srcExecF (max g1 g2) (items.getD (c - 1).toNat defaultChild) rest1
            = some (.normal false, c2, r2, cevs2) := by
          rw [hcd]; exact hsc'
        have step := src_valid_normal hc0 hv hch' hs3'
        obtain ⟨evs4, h4, hnav4⟩ := src_junk_star k step
        refine ⟨(max g1 g2 + 1) + k, evs4, h4, ?_⟩
        have hcd2 := hcd
        simp at hcd2
        rw [hnav4]
        simp [navOf_append, navOf_renderEvs, navOf_retryEvs, navOf_out, navOf_dispatch,
          navOf_postPlain, hn3, hnavc, hcd2]
    · obtain ⟨rfl, rfl, rfl, rfl⟩ := res_eq hr
      obtain ⟨g2, evs3, hs3, hn3⟩ := ih _ _ _ _ _ _ _ _ hcont
      have step := src_invalid hc0 hv hs3
      obtain ⟨evs4, h4, hnav4⟩ := src_junk_star k step
      refine ⟨(g2 + 1) + k, evs4, h4, ?_⟩
      rw [hnav4]
      simp [navOf_append, navOf_renderEvs, navOf_retryEvs, navOf_out, navOf_pausePlain, hn3]

/-- Every terminating src-variant `Menu` run has an include-variant run with
the same outcome, same final node, same remaining input and the same
navigation trace. -/
theorem src_to_inc : ∀ (f : Nat) (t : String) (root : Bool) (items : List MenuNode)
    (inputs : List Input) (o : Outcome) (n : MenuNode) (rest : List Input) (evs : List Event),
    srcExecF f (.menu t root items) inputs = some (o, n, rest, evs) →
    ∃ g evs2, includeExecF g (.menu t root items) inputs = some (o, n, rest, evs2) ∧
      navOf evs2 = navOf evs := by
  intro f
  induction f with
  | zero =>
    intro t root items inputs o n rest evs h
    simp [srcExecF] at h
  | succ f ih =>
    intro t root items inputs o n rest evs h
    rcases src_inv h with ⟨rest', o2, n2, r2, e2, hin, hcont, hr⟩
      | ⟨rest', hin, hr⟩
      | ⟨c, rest', hin, hc0, hv, hbr⟩
      | ⟨c, rest', o2, n2, r2, e2, hin, hc0, hv, hcont, hr⟩
    · subst hin
      obtain ⟨rfl, rfl, rfl, rfl⟩ := res_eq hr
      obtain ⟨g, evs2, hinc, hnav⟩ := ih _ _ _ _ _ _ _ _ hcont
      cases g with
      | zero => simp [includeExecF] at hinc
      | succ g2 =>
        obtain ⟨evs3, h3, hnav3⟩ := inc_junk hinc
        refine ⟨g2 + 1, evs3, h3, ?_⟩
        rw [hnav3, hnav]
        simp [navOf_append, navOf_renderEvs, navOf_out]
    · subst hin
      obtain ⟨rfl, rfl, rfl, rfl⟩ := res_eq hr
      refine ⟨1, _, inc_zero (get_int_option_num choicePrompt 0 rest), ?_⟩
      simp [navOf_append, navOf_renderEvs, navOf_out, navOf_nil]
    · subst hin
      rcases hbr with ⟨b, c2, r2, ce, o3, n3, r3, e3, hch, hcont, hr⟩
        | ⟨m, c2, r2, ce, hch, hr⟩
      · obtain ⟨rfl, rfl, rfl, rfl⟩ := res_eq hr
        obtain ⟨g2, evs3, hi3, hn3⟩ := ih _ _ _ _ _ _ _ _ hcont
        cases hcd : items.getD (c - 1).toNat defaultChild with
        | actionItem tc ac =>
          rw [hcd, srcExecF_leaf] at hch
          obtain ⟨hco, hc2, hrr, hce⟩ := res_eq (Option.some.inj hch)
          subst hc2; subst hrr; subst hce
          have hch' : includeExecF g2 (items.getD (c - 1).toNat defaultChild) rest'
              = some ((includeActionRun tc ac).1, .actionItem tc ac, rest',
                  (includeActionRun tc ac).2) := by
            rw [hcd, includeExecF_leaf]
          have step := inc_valid (get_int_option_num choicePrompt c rest') hc0 hv hch' hi3
          refine ⟨g2 + 1, _, step, ?_⟩
          have hcd2 := hcd
          simp at hcd2
          simp [navOf_append, navOf_renderEvs, navOf_out, navOf_dispatch, navOf_postPlain,
            navOf_srcAction, hn3, hcd2]
        | menu tc rc ic =>
          rw [hcd] at hch
          obtain ⟨g1, cevs2, hic, hnc⟩ := ih _ _ _ _ _ _ _ _ hch
          have hic' := inc_mono_le (Nat.le_max_left g1 g2) hic
          have hi3' := inc_mono_le (Nat.le_max_right g1 g2) hi3
          have hch' : includeExecF (max g1 g2) (items.getD (c - 1).toNat defaultChild) rest'
              = some (.normal b, c2, r2, cevs2) := by
            rw [hcd]; exact hic'
          have step := inc_valid (get_int_option_num choicePrompt c rest') hc0 hv hch' hi3'
          refine ⟨max g1 g2 + 1, _, step, ?_⟩
          have hcd2 := hcd
          simp at hcd2
          simp [navOf_append, navOf_renderEvs, navOf_out, navOf_dispatch, navOf_postPlain,
            hn3, hnc, hcd2]
      · exfalso
        cases hcd : items.getD (c - 1).toNat defaultChild with
        | actionItem tc ac =>
          rw [hcd, srcExecF_leaf] at hch
          have := congrArg (fun x : Res => x.1) (Option.some.inj hch)
          rw [srcActionRun_fst] at this
          exact Outcome.noConfusion this
        | menu tc rc ic =>
          rw [hcd] at hch
          have := src_menu_false f _ _ _ _ _ _ ⟨_, _, _, rfl⟩ hch
          exact Outcome.noConfusion this
    · subst hin
      obtain ⟨rfl, rfl, rfl, rfl⟩ := res_eq hr
      obtain ⟨g2, evs3, hi2, hn2⟩ := ih _ _ _ _ _ _ _ _ hcont
      have step := inc_invalid (get_int_option_num choicePrompt c rest') hc0 hv hi2
      refine ⟨g2 + 1, _, step, ?_⟩
      simp [navOf_append, navOf_renderEvs, navOf_out, navOf_pausePlain, hn2]

/-- Iterated form of `inc_junk`: any run of unparseable lines in front of the
input is transparent to the include-variant loop. -/
theorem inc_junk_star : ∀ (k : Nat) {f : Nat} {t : String} {root : Bool}
    {items : List MenuNode} {inputs : List Input} {o : Outcome} {n : MenuNode}
    {r : List Input} {evs : List Event},
    includeExecF (f + 1) (.menu t root items) inputs = some (o, n, r, evs) →
    ∃ evs2, includeExecF (f + 1) (.menu t root items) (List.replicate k Input.junk ++ inputs)
        = some (o, n, r, evs2) ∧ navOf evs2 = navOf evs := by
  intro k
  induction k with
  | zero =>
    intro f t root items inputs o n r evs h
    exact ⟨evs, by simpa using h, rfl⟩
  | succ k ih =>
    intro f t root items inputs o n r evs h
    obtain ⟨evs2, h2, hnav2⟩ := ih h
    obtain ⟨evs3, h3, hnav3⟩ := inc_junk h2
    refine ⟨evs3, ?_, by rw [hnav3, hnav2]⟩
    have hrep : List.replicate (k + 1) Input.junk ++ inputs
        = Input.junk :: (List.replicate k Input.junk ++ inputs) := by
      simp [List.replicate]
    rw [hrep]
    exact h3

/-- On unparseable lines only, the include-variant loop never returns. -/
theorem inc_menu_junk_none (f k : Nat) (t : String) (root : Bool) (items : List MenuNode) :
    includeExecF f (.menu t root items) (List.replicate k Input.junk) = none := by
  cases f with
  | zero => rfl
  | succ f => exact inc_get_none (get_int_option_junk_only choicePrompt k)

/-- On unparseable lines only, the src-variant loop never returns. -/
theorem src_menu_junk_none : ∀ (f k : Nat) (t : String) (root : Bool) (items : List MenuNode),
    srcExecF f (.menu t root items) (List.replicate k Input.junk) = none := by
  intro f
  induction f with
  | zero => intro k t root items; rfl
  | succ f ih =>
    intro k t root items
    cases k with
    | zero => exact src_menu_nil _ _ _ _
    | succ k => exact src_junk_none (ih k t root items)

/-! ## Claim theorems -/

/-- C2: in both variants, when the parsed choice equals 0, `Menu::execute`
returns `false` immediately, leaving the menu unchanged, consuming nothing
further, and without dispatching to or invoking any child (the step's trace
has no navigational event), for every menu, root or not, with any children
and any remaining input. -/
theorem claim2_zero_exits (f : Nat) (t : String) (root : Bool) (items : List MenuNode)
    (rest : List Input) :
    includeExecF (f + 1) (.menu t root items) (Input.num 0 :: rest)
        = some (.normal false, .menu t root items, rest,
            renderEvs root items ++ [Event.out choicePrompt])
    ∧ srcExecF (f + 1) (.menu t root items) (Input.num 0 :: rest)
        = some (.normal false, .menu t root items, rest,
            renderEvs root items ++ [Event.out choicePrompt])
    ∧ navOf (renderEvs root items ++ [Event.out choicePrompt]) = [] := by
  refine ⟨inc_zero (get_int_option_num choicePrompt 0 rest), src_zero f t root items rest, ?_⟩
  simp [navOf_append, navOf_renderEvs, navOf_out, navOf_nil]

/-- C4 counterexample: the src-variant `ActionItem::execute` on an unbound
callable is not a silent no-op — invoking the empty `std::function` raises
`bad_function_call`, whose message the catch block prints to stderr, so the
run produces output (a nonempty trace), though it still returns `true`. -/
theorem claim4_cex :
    srcExecF 1 (.actionItem "L" ActKind.unbound) []
        = some (.normal true, .actionItem "L" ActKind.unbound, [],
            [Event.err "bad_function_call\n", Event.keyWait])
    ∧ ([Event.err "bad_function_call\n", Event.keyWait] : List Event) ≠ [] := by
  exact ⟨rfl, by decide⟩

/-- C4 amended: an `ActionLeaf` with an unbound callable always returns `true`
and never crashes the loop in either variant; in the include variant the run
is a silent no-op (empty trace), while in the src variant the internal
`bad_function_call` error is caught and its message reported to stderr. -/
theorem claim4_unbound (f : Nat) (tl : String) (inputs : List Input) :
    includeExecF f (.actionItem tl ActKind.unbound) inputs
        = some (.normal true, .actionItem tl ActKind.unbound, inputs, [])
    ∧ srcExecF f (.actionItem tl ActKind.unbound) inputs
        = some (.normal true, .actionItem tl ActKind.unbound, inputs,
            [Event.err "bad_function_call\n", Event.keyWait]) :=
  ⟨includeExecF_leaf f tl ActKind.unbound inputs, srcExecF_leaf f tl ActKind.unbound inputs⟩

/-- C6: `MenuUtils::get_int_option` never returns on a parse failure — over
any `k` unparseable lines it prints `k` diagnostics and retries until the
first numeric line, whose value it returns with the input after it; on
unparseable lines alone it never returns.  Consequently (both variants)
non-numeric input never terminates the loop, and on the include variant an
unparseable prefix changes no navigational behaviour of the loop (no child
runs for it, same result, same navigation). -/
theorem claim6_retry (p : String) (k : Nat) (nn : Int) (rest : List Input) (f : Nat)
    (t : String) (root : Bool) (items : List MenuNode) :
    get_int_option p (List.replicate k Input.junk ++ Input.num nn :: rest)
        = some (nn, rest, retryEvs p k)
    ∧ get_int_option p (List.replicate k Input.junk) = none
    ∧ navOf (retryEvs p k) = []
    ∧ includeExecF f (.menu t root items) (List.replicate k Input.junk) = none
    ∧ srcExecF f (.menu t root items) (List.replicate k Input.junk) = none
    ∧ (∀ (o : Outcome) (n : MenuNode) (r : List Input) (evs : List Event),
        includeExecF (f + 1) (.menu t root items) (Input.num nn :: rest)
            = some (o, n, r, evs) →
        ∃ evs2, includeExecF (f + 1) (.menu t root items)
              (List.replicate k Input.junk ++ Input.num nn :: rest)
            = some (o, n, r, evs2) ∧ navOf evs2 = navOf evs) := by
  refine ⟨get_int_option_retry p k nn rest, get_int_option_junk_only p k,
    navOf_retryEvs p k, inc_menu_junk_none f k t root items,
    src_menu_junk_none f k t root items, ?_⟩
  intro o n r evs h
  exact inc_junk_star k h

/-- C7: nested scenario — a root menu whose single child `Sub` is itself a
menu with single leaf child `X`; feeding the choices `1, 1, 0, 0` dispatches
into `Sub`, executes leaf `X` exactly once, `Sub`'s own `0` unwinds one level
back to the root (which resumes rather than exiting on the child's `false`),
and the root's own `0` then returns `false` with the whole input consumed —
identically in both variants. -/
theorem claim7_nested :
    (includeExecF 5 (.menu "Root" true [.menu "Sub" false [.actionItem "X" ActKind.returns]])
        [Input.num 1, Input.num 1, Input.num 0, Input.num 0]).map proj
      = some (.normal false,
          .menu "Root" true [.menu "Sub" false [.actionItem "X" ActKind.returns]], [],
          [Event.dispatch "Sub", Event.dispatch "X", Event.invoke "X"])
    ∧ (srcExecF 5 (.menu "Root" true [.menu "Sub" false [.actionItem "X" ActKind.returns]])
        [Input.num 1, Input.num 1, Input.num 0, Input.num 0]).map proj
      = some (.normal false,
          .menu "Root" true [.menu "Sub" false [.actionItem "X" ActKind.returns]], [],
          [Event.dispatch "Sub", Event.dispatch "X", Event.invoke "X"]) := by
  constructor <;> rfl

/-- C1: for every menu and every parsed choice `i` with `1 ≤ i ≤ |items|`
(both variants), the step maps the 1-based index to the 0-based position
`i - 1`, dispatches `execute()` exactly once on that child, and then control
returns to the menu's own loop: the rest of the run is the loop continuation
applied to the child call's result, and that continuation does not depend on
the child's boolean return value (the value is absent from the right-hand
sides). -/
theorem claim1_dispatch (f : Nat) (t : String) (root : Bool) (items : List MenuNode)
    (i : Nat) (rest : List Input) (h1 : 1 ≤ i) (h2 : i ≤ items.length)
    {co₁ : Outcome} {c₁ : MenuNode} {r₁ : List Input} {ce₁ : List Event}
    {b₂ : Bool} {c₂ : MenuNode} {r₂ : List Input} {ce₂ : List Event}
    (hchI : includeExecF f (items.getD (i - 1) defaultChild) rest = some (co₁, c₁, r₁, ce₁))
    (hchS : srcExecF f (items.getD (i - 1) defaultChild) rest
        = some (.normal b₂, c₂, r₂, ce₂)) :
    ((i : Int) - 1).toNat = i - 1
    ∧ includeExecF (f + 1) (.menu t root items) (Input.num (i : Int) :: rest)
        = (includeExecF f (.menu t root (items.set (i - 1) c₁)) r₁).map
            (fun x => (x.1, x.2.1, x.2.2.1,
              renderEvs root items ++ [Event.out choicePrompt]
                ++ Event.dispatch (items.getD (i - 1) defaultChild).get_title
                  :: ce₁ ++ postOf co₁ ++ x.2.2.2))
    ∧ srcExecF (f + 1) (.menu t root items) (Input.num (i : Int) :: rest)
        = (srcExecF f (.menu t root (items.set (i - 1) c₂)) r₂).map
            (fun x => (x.1, x.2.1, x.2.2.1,
              (renderEvs root items ++ [Event.out choicePrompt])
                ++ Event.dispatch (items.getD (i - 1) defaultChild).get_title
                  :: ce₂ ++ x.2.2.2)) := by
  have hc0 : (i : Int) ≠ 0 := by omega
  have hv : 0 < (i : Int) ∧ (i : Int) ≤ (items.length : Int) := ⟨by omega, by omega⟩
  have hidx : ((i : Int) - 1).toNat = i - 1 := by omega
  refine ⟨hidx, ?_, ?_⟩
  · have hch1 : includeExecF f (items.getD ((i : Int) - 1).toNat defaultChild) rest
        = some (co₁, c₁, r₁, ce₁) := by rw [hidx]; exact hchI
    cases hcont : includeExecF f (.menu t root (items.set (i - 1) c₁)) r₁ with
    | none =>
      have hcont1 : includeExecF f (.menu t root (items.set ((i : Int) - 1).toNat c₁)) r₁
          = none := by rw [hidx]; exact hcont
      rw [inc_valid_cont_none (get_int_option_num choicePrompt (i : Int) rest) hc0 hv hch1
        hcont1]
      rfl
    | some rk =>
      obtain ⟨o, n3, r3, e3⟩ := rk
      have hcont1 : includeExecF f (.menu t root (items.set ((i : Int) - 1).toNat c₁)) r₁
          = some (o, n3, r3, e3) := by rw [hidx]; exact hcont
      rw [inc_valid (get_int_option_num choicePrompt (i : Int) rest) hc0 hv hch1 hcont1]
      simp [hidx]
  · have hch1 : srcExecF f (items.getD ((i : Int) - 1).toNat defaultChild) rest
        = some (.normal b₂, c₂, r₂, ce₂) := by rw [hidx]; exact hchS
    cases hcont : srcExecF f (.menu t root (items.set (i - 1) c₂)) r₂ with
    | none =>
      have hcont1 : srcExecF f (.menu t root (items.set ((i : Int) - 1).toNat c₂)) r₂
          = none := by rw [hidx]; exact hcont
      rw [src_valid_normal_cont_none hc0 hv hch1 hcont1]
      rfl
    | some rk =>
      obtain ⟨o, n3, r3, e3⟩ := rk
      have hcont1 : srcExecF f (.menu t root (items.set ((i : Int) - 1).toNat c₂)) r₂
          = some (o, n3, r3, e3) := by rw [hidx]; exact hcont
      rw [src_valid_normal hc0 hv hch1 hcont1]
      simp [hidx]

theorem claim1_witness :
    (includeExecF 1 ([MenuNode.actionItem "A" ActKind.returns].getD 0 defaultChild)
        [Input.num 0]
      = some (.normal true, .actionItem "A" ActKind.returns, [Input.num 0],
          [Event.invoke "A"]))
    ∧ ((1 : Int) - 1).toNat = 1 - 1 :=
  ⟨rfl, (claim1_dispatch 1 "M" true [.actionItem "A" ActKind.returns] 1 [Input.num 0]
    (by decide) (by decide) rfl rfl).1⟩

/-- C3 counterexample: the include-variant `ActionItem::execute`
(`src/include/Menu/ActionItem.h`) has no try/catch, so a throwing callable's
error escapes `execute()` itself — the call's outcome is the escaped
exception, not a `true` return. -/
theorem claim3_cex :
    includeExecF 1 (.actionItem "L" (ActKind.throws "boom")) []
        = some (.thrown "boom", .actionItem "L" (ActKind.throws "boom"), [],
            [Event.invoke "L"])
    ∧ Outcome.thrown "boom" ≠ Outcome.normal true :=
  ⟨rfl, by decide⟩

/-- C3 amended: a throwing callable never crashes the menu and the owning
loop always continues, but the boundary that catches differs by variant: in
the src variant the leaf's own `execute()` catches the error, reports its
message to stderr and returns `true`; in the include variant the error
escapes the leaf's `execute()` and is caught at the owning menu's dispatch
boundary, which reports the message and continues its loop. -/
theorem claim3_amended (f : Nat) (tl m : String) (inputs : List Input)
    (t : String) (root : Bool) (items : List MenuNode) (i : Nat) (rest : List Input) :
    srcExecF f (.actionItem tl (ActKind.throws m)) inputs
        = some (.normal true, .actionItem tl (ActKind.throws m), inputs,
            [Event.invoke tl, Event.err (m ++ "\n"), Event.keyWait])
    ∧ includeExecF f (.actionItem tl (ActKind.throws m)) inputs
        = some (.thrown m, .actionItem tl (ActKind.throws m), inputs, [Event.invoke tl])
    ∧ (1 ≤ i → i ≤ items.length →
        items.getD (i - 1) defaultChild = .actionItem tl (ActKind.throws m) →
        (∀ (o : Outcome) (n3 : MenuNode) (r3 : List Input) (e3 : List Event),
            includeExecF f (.menu t root items) rest = some (o, n3, r3, e3) →
            includeExecF (f + 1) (.menu t root items) (Input.num (i : Int) :: rest)
              = some (o, n3, r3,
                  renderEvs root items ++ [Event.out choicePrompt]
                    ++ Event.dispatch tl :: [Event.invoke tl]
                      ++ (Event.err (m ++ "\n") :: pauseEvs errPauseMsg) ++ e3))
        ∧ (∀ (o : Outcome) (n3 : MenuNode) (r3 : List Input) (e3 : List Event),
            srcExecF f (.menu t root items) rest = some (o, n3, r3, e3) →
            srcExecF (f + 1) (.menu t root items) (Input.num (i : Int) :: rest)
              = some (o, n3, r3,
                  (renderEvs root items ++ [Event.out choicePrompt])
                    ++ Event.dispatch tl
                      :: [Event.invoke tl, Event.err (m ++ "\n"), Event.keyWait] ++ e3))) := by
  refine ⟨srcExecF_leaf f tl (ActKind.throws m) inputs,
    includeExecF_leaf f tl (ActKind.throws m) inputs, ?_⟩
  intro hi1 hi2 hcd
  have hc0 : (i : Int) ≠ 0 := by omega
  have hv : 0 < (i : Int) ∧ (i : Int) ≤ (items.length : Int) := ⟨by omega, by omega⟩
  have hidx : ((i : Int) - 1).toNat = i - 1 := by omega
  have hlt : i - 1 < items.length := by omega
  have hset : items.set (i - 1) (MenuNode.actionItem tl (ActKind.throws m)) = items := by
    rw [← hcd]
    exact set_getD_self items (i - 1) defaultChild hlt
  constructor
  · intro o n3 r3 e3 hcont
    have hch1 : includeExecF f (items.getD ((i : Int) - 1).toNat defaultChild) rest
        = some (.thrown m, .actionItem tl (ActKind.throws m), rest, [Event.invoke tl]) := by
      rw [hidx, hcd]
      exact includeExecF_leaf f tl (ActKind.throws m) rest
    have hcont1 : includeExecF f
        (.menu t root (items.set ((i : Int) - 1).toNat
          (MenuNode.actionItem tl (ActKind.throws m)))) rest = some (o, n3, r3, e3) := by
      rw [hidx, hset]; exact hcont
    rw [inc_valid (get_int_option_num choicePrompt (i : Int) rest) hc0 hv hch1 hcont1]
    have hcd2 := hcd
    simp at hcd2
    simp [hidx, hcd, hcd2, MenuNode.get_title, postOf]
  · intro o n3 r3 e3 hcont
    have hch1 : srcExecF f (items.getD ((i : Int) - 1).toNat defaultChild) rest
        = some (.normal true, .actionItem tl (ActKind.throws m), rest,
            [Event.invoke tl, Event.err (m ++ "\n"), Event.keyWait]) := by
      rw [hidx, hcd]
      exact srcExecF_leaf f tl (ActKind.throws m) rest
    have hcont1 : srcExecF f
        (.menu t root (items.set ((i : Int) - 1).toNat
          (MenuNode.actionItem tl (ActKind.throws m)))) rest = some (o, n3, r3, e3) := by
      rw [hidx, hset]; exact hcont
    rw [src_valid_normal hc0 hv hch1 hcont1]
    have hcd2 := hcd
    simp at hcd2
    simp [hidx, hcd, hcd2, MenuNode.get_title]

theorem claim3_witness :
    includeExecF 2 (.menu "M" false [.actionItem "L" (ActKind.throws "boom")])
        [Input.num 1, Input.num 0]
      = some (.normal false, .menu "M" false [.actionItem "L" (ActKind.throws "boom")], [],
          renderEvs false [.actionItem "L" (ActKind.throws "boom")] ++ [Event.out choicePrompt]
            ++ Event.dispatch "L" :: [Event.invoke "L"]
              ++ (Event.err ("boom" ++ "\n") :: pauseEvs errPauseMsg)
              ++ (renderEvs false [.actionItem "L" (ActKind.throws "boom")]
                  ++ [Event.out choicePrompt])) :=
  ((claim3_amended 1 "L" "boom" [] "M" false [.actionItem "L" (ActKind.throws "boom")]
      1 [Input.num 0]).2.2 (by decide) (by decide) rfl).1
    (.normal false) (.menu "M" false [.actionItem "L" (ActKind.throws "boom")]) []
    (renderEvs false [.actionItem "L" (ActKind.throws "boom")] ++ [Event.out choicePrompt])
    (inc_zero (get_int_option_num choicePrompt 0 []))

/-- C5: in both variants, a parsed out-of-range choice (`c < 0` or
`c > |items|`, `c ≠ 0`) dispatches no child and leaves the menu unchanged:
the step only reports an invalid-choice message and continues the loop on the
very same menu (same `items`, so `|items|` unchanged); its added events carry
no navigation.  Moreover the index used on the guarded dispatch path is
always in bounds, so no out-of-bounds child access exists and index 0 never
maps to a child. -/
theorem claim5_invalid (f : Nat) (t : String) (root : Bool) (items : List MenuNode)
    (c : Int) (rest : List Input)
    (hc0 : c ≠ 0) (hinv : ¬(0 < c ∧ c ≤ (items.length : Int))) :
    includeExecF (f + 1) (.menu t root items) (Input.num c :: rest)
        = (includeExecF f (.menu t root items) rest).map
            (fun x => (x.1, x.2.1, x.2.2.1,
              renderEvs root items ++ [Event.out choicePrompt]
                ++ Event.out "Invalid choice!\n" :: pauseEvs stdPauseMsg ++ x.2.2.2))
    ∧ srcExecF (f + 1) (.menu t root items) (Input.num c :: rest)
        = (srcExecF f (.menu t root items) rest).map
            (fun x => (x.1, x.2.1, x.2.2.1,
              (renderEvs root items ++ [Event.out choicePrompt])
                ++ Event.out "Invalid choice\n" :: x.2.2.2))
    ∧ navOf (renderEvs root items ++ [Event.out choicePrompt]
          ++ Event.out "Invalid choice!\n" :: pauseEvs stdPauseMsg) = []
    ∧ (∀ d : Int, 0 < d → d ≤ (items.length : Int) → (d - 1).toNat < items.length) := by
  refine ⟨?_, ?_, ?_, fun d hd1 hd2 => idx_lt hd1 hd2⟩
  · cases hcont : includeExecF f (.menu t root items) rest with
    | none =>
      rw [inc_invalid_none (get_int_option_num choicePrompt c rest) hc0 hinv hcont]
      rfl
    | some rk =>
      obtain ⟨o, n2, r2, e2⟩ := rk
      rw [inc_invalid (get_int_option_num choicePrompt c rest) hc0 hinv hcont]
      rfl
  · cases hcont : srcExecF f (.menu t root items) rest with
    | none =>
      rw [src_invalid_none hc0 hinv hcont]
      rfl
    | some rk =>
      obtain ⟨o, n2, r2, e2⟩ := rk
      rw [src_invalid hc0 hinv hcont]
      rfl
  · simp [navOf_append, navOf_renderEvs, navOf_out, navOf_pausePlain, navOf_nil]

theorem claim5_witness :
    ((5 : Int) ≠ 0 ∧ ¬(0 < (5 : Int) ∧ (5 : Int) ≤ (([] : List MenuNode).length : Int)))
    ∧ navOf (renderEvs true [] ++ [Event.out choicePrompt]
        ++ Event.out "Invalid choice!\n" :: pauseEvs stdPauseMsg) = [] :=
  ⟨⟨by decide, by decide⟩, (claim5_invalid 0 "M" true [] 5 [] (by decide) (by decide)).2.2.1⟩

/-- C8: navigational equivalence of the two loop variants — for every menu
and every input sequence, one variant has a terminating run with a given
outcome, final node, remaining input and navigation trace (which children
were dispatched and which callables invoked, in order) exactly when the
other does.  The variants differ only in presentation events (re-rendering
on retry, pause-for-keypress placement), which the navigation projection
discards. -/
theorem claim8_equiv (t : String) (root : Bool) (items : List MenuNode)
    (inputs rest : List Input) (o : Outcome) (n : MenuNode) (nav : List Event) :
    (∃ f evs, includeExecF f (.menu t root items) inputs = some (o, n, rest, evs)
        ∧ navOf evs = nav)
    ↔ (∃ f evs, srcExecF f (.menu t root items) inputs = some (o, n, rest, evs)
        ∧ navOf evs = nav) := by
  constructor
  · rintro ⟨f, evs, h, rfl⟩
    obtain ⟨g, evs2, h2, hnav⟩ := inc_to_src f t root items inputs o n rest evs h
    exact ⟨g, evs2, h2, hnav⟩
  · rintro ⟨f, evs, h, rfl⟩
    obtain ⟨g, evs2, h2, hnav⟩ := src_to_inc f t root items inputs o n rest evs h
    exact ⟨g, evs2, h2, hnav⟩

theorem claim8_witness :
    ∃ f evs, srcExecF f (.menu "M" true []) [Input.num 0]
        = some (.normal false, .menu "M" true [], [], evs) ∧ navOf evs = [] :=
  (claim8_equiv "M" true [] [Input.num 0] [] (.normal false) (.menu "M" true []) []).mp
    ⟨1, renderEvs true [] ++ [Event.out choicePrompt], rfl, rfl⟩

/-- C9: `Menu::execute` never modifies the tree — in both variants, any
terminating run returns the node exactly as it was (same title, same
`isRoot`, children of the same length, order and identity); and the only
child-adding operations, `add_item`, `add_action` and `add_sub_menu`, each
append exactly one node and change neither `title` nor `isRoot`. -/
theorem claim9_frame :
    (∀ (f : Nat) (node : MenuNode) (inputs : List Input) (o : Outcome) (n : MenuNode)
        (rest : List Input) (evs : List Event),
        includeExecF f node inputs = some (o, n, rest, evs) → n = node)
    ∧ (∀ (f : Nat) (node : MenuNode) (inputs : List Input) (o : Outcome) (n : MenuNode)
        (rest : List Input) (evs : List Event),
        srcExecF f node inputs = some (o, n, rest, evs) → n = node)
    ∧ (∀ (m : Menu) (x : MenuNode), (m.add_item x).items = m.items ++ [x]
        ∧ (m.add_item x).title = m.title ∧ (m.add_item x).isRoot = m.isRoot)
    ∧ (∀ (m : Menu) (tl : String) (a : ActKind),
        (m.add_action tl a).items = m.items ++ [MenuNode.actionItem tl a]
        ∧ (m.add_action tl a).title = m.title ∧ (m.add_action tl a).isRoot = m.isRoot)
    ∧ (∀ (m s : Menu), (m.add_sub_menu s).items = m.items ++ [s.toNode]
        ∧ (m.add_sub_menu s).title = m.title ∧ (m.add_sub_menu s).isRoot = m.isRoot) :=
  ⟨inc_preserve, src_preserve, fun _ _ => ⟨rfl, rfl, rfl⟩, fun _ _ _ => ⟨rfl, rfl, rfl⟩,
    fun _ _ => ⟨rfl, rfl, rfl⟩⟩

theorem claim9_witness :
    (includeExecF 1 (.menu "M" true []) [Input.num 0]
        = some (.normal false, .menu "M" true [], [],
            renderEvs true [] ++ [Event.out choicePrompt]))
    ∧ MenuNode.menu "M" true [] = MenuNode.menu "M" true [] :=
  ⟨rfl, claim9_frame.1 1 (.menu "M" true []) [Input.num 0] (.normal false)
    (.menu "M" true []) [] (renderEvs true [] ++ [Event.out choicePrompt]) rfl⟩

/-- C10: whenever `Menu::execute` terminates (either variant), it returns
`false` — a menu can never return `true`, so the `true` case of the
`execute()` contract is realized only by `ActionLeaf` (whose runs do yield
`normal true`), and every terminating menu execution went through the `0`
branch. -/
theorem claim10_menu_false (f : Nat) (t tl : String) (root : Bool) (items : List MenuNode)
    (inputs : List Input) (o : Outcome) (n : MenuNode) (rest : List Input)
    (evs : List Event) :
    (includeExecF f (.menu t root items) inputs = some (o, n, rest, evs)
        → o = .normal false)
    ∧ (srcExecF f (.menu t root items) inputs = some (o, n, rest, evs)
        → o = .normal false)
    ∧ includeExecF f (.actionItem tl ActKind.returns) inputs
        = some (.normal true, .actionItem tl ActKind.returns, inputs, [Event.invoke tl])
    ∧ (∀ a : ActKind, (srcExecF f (.actionItem tl a) inputs).map (fun x : Res => x.1)
        = some (.normal true)) := by
  refine ⟨fun h => inc_menu_false f _ inputs o n rest evs ⟨t, root, items, rfl⟩ h,
    fun h => src_menu_false f _ inputs o n rest evs ⟨t, root, items, rfl⟩ h,
    includeExecF_leaf f tl ActKind.returns inputs, ?_⟩
  intro a
  rw [srcExecF_leaf, Option.map_some']
  rw [show ((srcActionRun tl a).1, MenuNode.actionItem tl a, inputs,
    (srcActionRun tl a).2).1 = (srcActionRun tl a).1 from rfl, srcActionRun_fst]

theorem claim10_witness :
    (includeExecF 1 (.menu "M" true []) [Input.num 0]
        = some (.normal false, .menu "M" true [], [],
            renderEvs true [] ++ [Event.out choicePrompt]))
    ∧ Outcome.normal false = Outcome.normal false :=
  ⟨rfl, (claim10_menu_false 1 "M" "L" true [] [Input.num 0] (.normal false)
    (.menu "M" true []) [] (renderEvs true [] ++ [Event.out choicePrompt])).1 rfl⟩

theorem claim6_witness :
    ∃ evs2, includeExecF 1 (.menu "M" true [])
        (List.replicate 1 Input.junk ++ [Input.num 0])
      = some (.normal false, .menu "M" true [], [], evs2)
      ∧ navOf evs2 = navOf (renderEvs true [] ++ [Event.out choicePrompt]) :=
  (claim6_retry choicePrompt 1 0 [] 0 "M" true []).2.2.2.2.2 (.normal false)
    (.menu "M" true []) [] (renderEvs true [] ++ [Event.out choicePrompt]) rfl
